/-
Verification of the gofipe backend (src/app/main.go) against its
natural-language specification.

The Go code is shallowly embedded: JSON values are an inductive type,
upstream HTTP fetches are an oracle function from URL strings to
either an error message or a payload, time.Now() is an explicit Date
parameter, and the Prometheus metric registries are an explicit record
of counter and gauge functions threaded through the handlers.
-/
import Mathlib

set_option autoImplicit false

namespace Gofipe

/-! ## JSON values and payloads

A fetched body is either a JSON value or raw bytes that do not parse
as JSON.  JSON objects are association lists of key/value pairs,
modelling the Go map obtained from json.Unmarshal; the claims only
inspect objects through key lookup, so field order is never relied
upon.  JSON numbers are rationals (exact decimal semantics). -/

inductive Json where
  | null
  | bool (b : Bool)
  | num (q : ℚ)
  | str (s : String)
  | arr (elems : List Json)
  | obj (fields : List (String × Json))

inductive Payload where
  | json (j : Json)
  | raw (s : String)

/-- Lookup of a key in a JSON object, modelling Go map indexing
(unmarshalled objects have distinct keys). -/
def objLookup : List (String × Json) → String → Option Json
  | [], _ => none
  | (k', v) :: rest, k => if k' = k then some v else objLookup rest k

/-- Map assignment `m[k] = v`: replaces the binding when the key is
present, otherwise appends it. -/
def objSet : List (String × Json) → String → Json → List (String × Json)
  | [], k, v => [(k, v)]
  | (k', v') :: rest, k, v =>
      if k' = k then (k, v) :: rest else (k', v') :: objSet rest k v

/-- Go `m[k] == nil`: true when the key is absent or bound to JSON null. -/
def isNilAt (fs : List (String × Json)) (k : String) : Bool :=
  match objLookup fs k with
  | none => true
  | some Json.null => true
  | some _ => false

/-- Go `_, ok := m[k]`: presence of the key, a null value counts as present. -/
def hasKey (fs : List (String × Json)) (k : String) : Bool :=
  (objLookup fs k).isSome

/-! ## The PriceResponse struct (main.go lines 91-101) -/

structure PriceResponse where
  Price : String
  Brand : String
  Model : String
  ModelYear : Int
  Fuel : String
  CodeFipe : String
  ReferenceMonth : String
  VehicleType : Int
  AcronymFuel : String
deriving DecidableEq

def emptyPR : PriceResponse := ⟨"", "", "", 0, "", "", "", 0, ""⟩

/-- ASCII lowering, enough for the JSON field tags of PriceResponse
(Go json matches keys case-insensitively). -/
def asciiLower (c : Char) : Char :=
  if 'A' ≤ c ∧ c ≤ 'Z' then Char.ofNat (c.toNat + 32) else c

def lowerKey (s : String) : String := String.mk (s.data.map asciiLower)

/-- Decoding a JSON value into a string struct field: strings assign,
null leaves the current value, anything else is a type error. -/
def setStrField (cur : String) (v : Json) : Option String :=
  match v with
  | Json.str s => some s
  | Json.null => some cur
  | _ => none

/-- Decoding a JSON value into an int struct field: integral numbers
assign, null leaves the current value, anything else is a type error. -/
def setIntField (cur : Int) (v : Json) : Option Int :=
  match v with
  | Json.num q => if q.den = 1 then some q.num else none
  | Json.null => some cur
  | _ => none

/-- One step of json.Unmarshal into PriceResponse: route an object
entry to the struct field whose tag matches (case-insensitively),
ignoring unknown keys, failing on a type mismatch. -/
def assignField (pr : PriceResponse) (kv : String × Json) : Option PriceResponse :=
  let k := lowerKey kv.1
  if k = "price" then (setStrField pr.Price kv.2).map (fun s => { pr with Price := s })
  else if k = "brand" then (setStrField pr.Brand kv.2).map (fun s => { pr with Brand := s })
  else if k = "model" then (setStrField pr.Model kv.2).map (fun s => { pr with Model := s })
  else if k = "modelyear" then (setIntField pr.ModelYear kv.2).map (fun n => { pr with ModelYear := n })
  else if k = "fuel" then (setStrField pr.Fuel kv.2).map (fun s => { pr with Fuel := s })
  else if k = "codefipe" then (setStrField pr.CodeFipe kv.2).map (fun s => { pr with CodeFipe := s })
  else if k = "referencemonth" then (setStrField pr.ReferenceMonth kv.2).map (fun s => { pr with ReferenceMonth := s })
  else if k = "vehicletype" then (setIntField pr.VehicleType kv.2).map (fun n => { pr with VehicleType := n })
  else if k = "acronymfuel" then (setStrField pr.AcronymFuel kv.2).map (fun s => { pr with AcronymFuel := s })
  else some pr

/-- `json.Unmarshal(b, &pr)` for pr a PriceResponse: succeeds on a JSON
object (folding the entries over the zero struct) and on JSON null
(which Go leaves as the zero struct); fails on raw bytes and every
other JSON shape. -/
def decodePriceResponse : Payload → Option PriceResponse
  | Payload.json (Json.obj fs) => fs.foldlM assignField emptyPR
  | Payload.json Json.null => some emptyPR
  | _ => none

/-- `json.Marshal` of a PriceResponse: an object with the nine tagged
fields in struct declaration order (marshalling a struct never fails). -/
def marshalPR (pr : PriceResponse) : Json :=
  Json.obj
    [ ("price", Json.str pr.Price)
    , ("brand", Json.str pr.Brand)
    , ("model", Json.str pr.Model)
    , ("modelYear", Json.num (pr.ModelYear : ℚ))
    , ("fuel", Json.str pr.Fuel)
    , ("codeFipe", Json.str pr.CodeFipe)
    , ("referenceMonth", Json.str pr.ReferenceMonth)
    , ("vehicleType", Json.num (pr.VehicleType : ℚ))
    , ("acronymFuel", Json.str pr.AcronymFuel)
    ]

/-! ## Price parsing (main.go lines 522-536)

`strconv.ParseFloat` is modelled with exact decimal semantics over the
inputs parsePrice can pass it (strings over digits, dots and commas;
no exponents, signs or float64 rounding arise on that domain). -/

def isSpaceChar (c : Char) : Bool :=
  c = ' ' || c = '\t' || c = '\n' || c = '\r' || c = '\x0b' || c = '\x0c'

/-- strings.TrimSpace on the character list. -/
def goTrim (l : List Char) : List Char :=
  ((l.dropWhile isSpaceChar).reverse.dropWhile isSpaceChar).reverse

/-- The character class of the regexp `[0-9,.]+`. -/
def isNumChar (c : Char) : Bool := c.isDigit || c = ',' || c = '.'

/-- `regexp.MustCompile("[0-9,.]+").FindString`: the leftmost maximal
run of characters in the class. -/
def findRun (l : List Char) : List Char :=
  (l.dropWhile (fun c => !isNumChar c)).takeWhile isNumChar

def hasChar (l : List Char) (c : Char) : Bool := l.any (fun x => x = c)

/-- `strings.ReplaceAll(m, ".", "")`. -/
def stripDots (l : List Char) : List Char := l.filter (fun c => !(c = '.'))

/-- `strings.ReplaceAll(m, ",", ".")`. -/
def commaToDot (l : List Char) : List Char :=
  l.map (fun c => if c = ',' then '.' else c)

def natOfDigits (l : List Char) : ℕ :=
  l.foldl (fun acc c => acc * 10 + (c.toNat - 48)) 0

/-- Split a character list at every dot (the list of dot-free chunks). -/
def splitDots : List Char → List (List Char)
  | [] => [[]]
  | c :: rest =>
      let r := splitDots rest
      if c = '.' then [] :: r else (c :: r.headI) :: r.tail

/-- `strconv.ParseFloat` on the digit-and-dot strings reachable from
parsePrice: at most one dot, at least one digit, exact decimal value. -/
def parseFloatQ (m : List Char) : Option ℚ :=
  match splitDots m with
  | [ip] =>
      if !ip.isEmpty && ip.all Char.isDigit then some (natOfDigits ip : ℚ) else none
  | [ip, fp] =>
      if (!ip.isEmpty || !fp.isEmpty) && ip.all Char.isDigit && fp.all Char.isDigit then
        some ((natOfDigits ip : ℚ) + (natOfDigits fp : ℚ) / ((10 : ℚ) ^ fp.length))
      else none
  | _ => none

inductive PriceErr where
  | noNumericPart
  | badNumber
deriving DecidableEq

/-- The separator normalization of parsePrice (main.go lines 529-534):
with both separators present dots are thousands marks and the comma is
the decimal point; with only commas present the comma is the decimal
point; otherwise the run is left alone. -/
def sepNormalize (m : List Char) : List Char :=
  if hasChar m '.' && hasChar m ',' then commaToDot (stripDots m)
  else if hasChar m ',' && !hasChar m '.' then commaToDot m
  else m

/-- The final ParseFloat step of parsePrice, with its error wrapped. -/
def ofParseFloat (m : List Char) : Except PriceErr ℚ :=
  match parseFloatQ m with
  | some q => Except.ok q
  | none => Except.error PriceErr.badNumber

/-- parsePrice (main.go lines 522-536): trim, extract the numeric run,
normalize thousands/decimal separators, parse. -/
def parsePrice (s : String) : Except PriceErr ℚ :=
  let m := findRun (goTrim s.data)
  if m.isEmpty then Except.error PriceErr.noNumericPart
  else ofParseFloat (sepNormalize m)

/-! ## TTL cache (main.go lines 103-128)

Payload bytes are abstract; time.Now() is an explicit natural-number
instant. -/

structure CacheItem where
  data : List ℕ
  expiresAt : ℕ

def Cache := String → Option CacheItem

/-- getCached: absent keys and entries whose expiry is strictly in the
past read as not-found. -/
def getCached (c : Cache) (now : ℕ) (key : String) : Option (List ℕ) :=
  match c key with
  | none => none
  | some it => if now > it.expiresAt then none else some it.data

/-- setCached: store the bytes with expiry now + ttl. -/
def setCached (c : Cache) (now : ℕ) (key : String) (d : List ℕ) (ttl : ℕ) : Cache :=
  fun k => if k = key then some ⟨d, now + ttl⟩ else c k

/-! ## Dates and the Go time functions the handlers use

time.Time is modelled by its calendar date (year, month 1-12,
day 1-31); the handlers only ever read the month and year.
AddDate(0, -i, 0) follows the documented Go normalization: the month
offset is applied first, then a day past the end of the resulting
month rolls into the following month (April 31 becomes May 1). -/

structure Date where
  year : Int
  month : ℕ
  day : ℕ
deriving DecidableEq

def isLeap (y : Int) : Bool :=
  y % 4 = 0 && (y % 100 ≠ 0 || y % 400 = 0)

def daysInMonth (y : Int) (m : ℕ) : ℕ :=
  match m with
  | 1 => 31
  | 2 => if isLeap y then 29 else 28
  | 3 => 31
  | 4 => 30
  | 5 => 31
  | 6 => 30
  | 7 => 31
  | 8 => 31
  | 9 => 30
  | 10 => 31
  | 11 => 30
  | _ => 31

/-- time.Time.AddDate(0, delta, 0) with Go date normalization.  For
days taken from a real date (at most 31) a single roll into the next
month suffices, as every month has at least 28 days. -/
def addMonths (d : Date) (delta : Int) : Date :=
  let t : Int := d.year * 12 + ((d.month : Int) - 1) + delta
  let y := t.ediv 12
  let m := (t.emod 12).toNat + 1
  let dim := daysInMonth y m
  if d.day ≤ dim then ⟨y, m, d.day⟩
  else if m = 12 then ⟨y + 1, 1, d.day - dim⟩
  else ⟨y, m + 1, d.day - dim⟩

def intStr (i : Int) : String :=
  if i < 0 then "-" ++ Nat.repr (-i).toNat else Nat.repr i.toNat

/-- Two-digit zero padding, the "01" and "%02d" format verbs. -/
def pad2 (n : ℕ) : String :=
  if n < 10 then "0" ++ Nat.repr n else Nat.repr n

/-- ref.Format("2006-01"): the year-month string used in candidate URLs. -/
def fmtYM (d : Date) : String := intStr d.year ++ "-" ++ pad2 d.month

/-- fmt.Sprintf("%02d/%d", month, year): the normalized history label. -/
def fmtMMYYYY (d : Date) : String := pad2 d.month ++ "/" ++ intStr d.year

/-- The reference string for month offset i (main.go line 409). -/
def refYM (now : Date) (i : ℕ) : String := fmtYM (addMonths now (-(i : Int)))

/-- The synthetic label for history index i (main.go lines 382-383,
496-497). -/
def monthLabel (now : Date) (i : ℕ) : String := fmtMMYYYY (addMonths now (-(i : Int)))

/-- Split a character list at every dash, for strings.Split(ref, "-"). -/
def splitDash : List Char → List (List Char)
  | [] => [[]]
  | c :: rest =>
      let r := splitDash rest
      if c = '-' then [] :: r else (c :: r.headI) :: r.tail

/-- Conversion of a "YYYY-MM" reference string to "MM/YYYY"
(main.go lines 428-433). -/
def refLabelFromYM (ref : String) : String :=
  match splitDash ref.data with
  | [y, m] => String.mk m ++ "/" ++ String.mk y
  | _ => ref

/-! ## Query-parameter parsing for months (main.go lines 360-367) -/

def digitsVal (l : List Char) : Option ℕ :=
  if !l.isEmpty && l.all Char.isDigit then some (natOfDigits l) else none

/-- strconv.Atoi restricted to the widths in play (no overflow). -/
def atoiInt (s : String) : Option Int :=
  match s.data with
  | [] => none
  | '-' :: rest => (digitsVal rest).map (fun n => -(n : Int))
  | '+' :: rest => (digitsVal rest).map (fun n => (n : Int))
  | l => (digitsVal l).map (fun n => (n : Int))

/-- Empty, unparsable and non-positive months parameters default to 12. -/
def resolveMonths (s : String) : ℕ :=
  let s := if s = "" then "12" else s
  match atoiInt s with
  | none => 12
  | some n => if n ≤ 0 then 12 else n.toNat

/-! ## The fetch oracle and handler results -/

/-- fetchExternal, abstracted: the network maps a URL to an error
message or a payload. -/
def Fetch := String → Except String Payload

/-- The observable outcome of a handler: a body written with status
200, a history body `\x7b"history": entries\x7d`, or http.Error with a
status code and message. -/
inductive HandlerResult where
  | ok (body : Payload)
  | okHistory (entries : List Payload)
  | err (status : ℕ) (msg : String)

def BaseURL : String := "https://fipe.parallelum.com.br/api/v2"

/-! ## Prometheus metrics state (main.go lines 23-71) -/

structure Metrics where
  vehicleSearchStats : String × String × String → ℕ
  brandCounter : String → ℕ
  fuelCounter : String → ℕ
  priceMinGauge : String × String × String → ℚ
  priceMaxGauge : String × String × String → ℚ

/-- CounterVec.WithLabelValues(...).Inc(). -/
def bump {α : Type} [DecidableEq α] (f : α → ℕ) (a : α) : α → ℕ :=
  fun x => if x = a then f a + 1 else f x

/-- GaugeVec.WithLabelValues(...).Set(v). -/
def setAt {α : Type} [DecidableEq α] (f : α → ℚ) (a : α) (v : ℚ) : α → ℚ :=
  fun x => if x = a then v else f x

def zeroMetrics : Metrics :=
  ⟨fun _ => 0, fun _ => 0, fun _ => 0, fun _ => 0, fun _ => 0⟩

/-! ## The price handler (main.go lines 293-332) -/

structure PriceReq where
  vType : String
  brandId : String
  modelId : String
  yearId : String
  brandName : String
  modelName : String

def priceURL (q : PriceReq) : String :=
  BaseURL ++ "/" ++ q.vType ++ "/brands/" ++ q.brandId ++ "/models/" ++
    q.modelId ++ "/years/" ++ q.yearId

/-- The metric updates handleGetPrice performs on a successfully
fetched payload (main.go lines 317-328): gauges only when the payload
decodes and its price parses, the fuel counter only when the decoded
fuel is nonempty. -/
def priceMetricsOnSuccess (yearId : String) (data : Payload) (ms : Metrics) : Metrics :=
  match decodePriceResponse data with
  | some pr =>
      let ms1 :=
        match parsePrice pr.Price with
        | Except.ok f =>
            { ms with
              priceMinGauge := setAt ms.priceMinGauge (pr.Brand, pr.Model, yearId) f
              priceMaxGauge := setAt ms.priceMaxGauge (pr.Brand, pr.Model, yearId) f }
        | Except.error _ => ms
      if pr.Fuel ≠ "" then { ms1 with fuelCounter := bump ms1.fuelCounter pr.Fuel } else ms1
  | none => ms

/-- The unconditional counter bumps handleGetPrice performs before the
upstream fetch (main.go lines 303-306). -/
def preMetrics (q : PriceReq) (ms0 : Metrics) : Metrics :=
  let ms := { ms0 with
    vehicleSearchStats := bump ms0.vehicleSearchStats (q.brandName, q.modelName, q.yearId) }
  { ms with brandCounter := bump ms.brandCounter q.brandName }

/-- handleGetPrice: bump the search and brand counters, fetch, surface
fetch errors as 502, otherwise update metrics best-effort and return
the upstream payload verbatim. -/
def handleGetPrice (fetch : Fetch) (q : PriceReq) (ms0 : Metrics) :
    Metrics × HandlerResult :=
  let ms := preMetrics q ms0
  match fetch (priceURL q) with
  | Except.error e => (ms, HandlerResult.err 502 e)
  | Except.ok data => (priceMetricsOnSuccess q.yearId data ms, HandlerResult.ok data)

/-! ## The price-history handler (main.go lines 353-519) -/

structure HistReq where
  vType : String
  brandId : String
  modelId : String
  yearId : String
  monthsStr : String

def yearURL (q : HistReq) : String :=
  BaseURL ++ "/" ++ q.vType ++ "/brands/" ++ q.brandId ++ "/models/" ++
    q.modelId ++ "/years/" ++ q.yearId

def histURL (q : HistReq) (months : ℕ) : String :=
  yearURL q ++ "/history?months=" ++ Nat.repr months

def singleURL (q : HistReq) : String := yearURL q

/-- The five candidate endpoint shapes probed for one month
(main.go lines 411-419), in priority order. -/
def candidateURLs (q : HistReq) (ref : String) : List String :=
  [ yearURL q ++ "?referenceMonth=" ++ ref
  , yearURL q ++ "?reference=" ++ ref
  , yearURL q ++ "?month=" ++ ref
  , yearURL q ++ "/history/" ++ ref
  , yearURL q ++ "/historico/" ++ ref ]

/-- The outcome of one candidate probe: the fetch failed, the payload
decoded to a record with an empty price (advance to the next
candidate), or a value to store in the slot. -/
inductive ProbeOutcome where
  | fetchFail
  | emptyPrice
  | store (p : Payload)

/-- One iteration of the candidate loop (main.go lines 421-466): on a
successful fetch, decode as PriceResponse (filling in the reference
month from ref if the upstream left it empty, rejecting an empty
price), else fall back to the generic map decode (injecting
referenceMonth when nil, copying a legacy Valor field into price when
price is absent), else keep the raw bytes. -/
def probeCandidate (fetch : Fetch) (ref : String) (u : String) : ProbeOutcome :=
  match fetch u with
  | Except.error _ => ProbeOutcome.fetchFail
  | Except.ok b =>
      match decodePriceResponse b with
      | some pr =>
          let pr1 := if pr.ReferenceMonth = "" then { pr with ReferenceMonth := refLabelFromYM ref } else pr
          if pr1.Price = "" then ProbeOutcome.emptyPrice
          else ProbeOutcome.store (Payload.json (marshalPR pr1))
      | none =>
          match b with
          | Payload.json (Json.obj fs) =>
              let fs1 := if isNilAt fs "referenceMonth" then objSet fs "referenceMonth" (Json.str ref) else fs
              let fs2 :=
                if hasKey fs1 "price" then fs1
                else
                  match objLookup fs1 "Valor" with
                  | some v => objSet fs1 "price" v
                  | none => fs1
              ProbeOutcome.store (Payload.json (Json.obj fs2))
          | _ => ProbeOutcome.store b

/-- The candidate loop: the first stored value wins; failed fetches
and empty-price records advance to the next candidate; an exhausted
list leaves the slot empty. -/
def tryCandidates (fetch : Fetch) (ref : String) : List String → Option Payload
  | [] => none
  | u :: rest =>
      match probeCandidate fetch ref u with
      | ProbeOutcome.fetchFail => tryCandidates fetch ref rest
      | ProbeOutcome.emptyPrice => tryCandidates fetch ref rest
      | ProbeOutcome.store p => some p

/-- The per-month goroutine for offset i (main.go lines 405-468): the
slots are independent, so the concurrent fan-out is a pure function of
the offset. -/
def monthSlot (now : Date) (fetch : Fetch) (q : HistReq) (i : ℕ) : Option Payload :=
  tryCandidates fetch (refYM now i) (candidateURLs q (refYM now i))

/-- Relabelling of the elements of a native "history" array
(main.go lines 379-386): elements that are JSON objects get their
referenceMonth overwritten with the label for their index; other
elements are left untouched. -/
def labelArr (now : Date) : ℕ → List Json → List Json
  | _, [] => []
  | i, x :: rest =>
      (match x with
       | Json.obj fs => Json.obj (objSet fs "referenceMonth" (Json.str (monthLabel now i)))
       | _ => x) :: labelArr now (i + 1) rest

/-- The native-endpoint success path (main.go lines 372-399): if the
payload is a JSON object whose "history" key holds an array, relabel
its elements and return the mutated object; any other shape is
returned raw. -/
def nativeNormalize (now : Date) (data : Payload) : HandlerResult :=
  match data with
  | Payload.json (Json.obj m) =>
      match objLookup m "history" with
      | some (Json.arr l) =>
          HandlerResult.ok (Payload.json (Json.obj (objSet m "history" (Json.arr (labelArr now 0 l)))))
      | _ => HandlerResult.ok data
  | _ => HandlerResult.ok data

/-- The final normalization pass on one assembled entry
(main.go lines 492-513): entries decoding as PriceResponse are
relabelled and re-marshalled; otherwise JSON objects get the label
injected; anything else is kept as-is. -/
def normalizeEntry (now : Date) (i : ℕ) (p : Payload) : Payload :=
  match decodePriceResponse p with
  | some pr => Payload.json (marshalPR { pr with ReferenceMonth := monthLabel now i })
  | none =>
      match p with
      | Payload.json (Json.obj fs) =>
          Payload.json (Json.obj (objSet fs "referenceMonth" (Json.str (monthLabel now i))))
      | _ => p

def normalizeAll (now : Date) : ℕ → List Payload → List Payload
  | _, [] => []
  | i, p :: rest => normalizeEntry now i p :: normalizeAll now (i + 1) rest

/-- handleGetPriceHistory (main.go lines 354-519): try the native
history endpoint; on failure probe every month concurrently, collect
the non-empty slots in offset order, fall back to the single current
price when all slots are empty, and surface a combined 502 when that
also fails; assembled histories get the final relabelling pass. -/
def handleGetPriceHistory (now : Date) (fetch : Fetch) (q : HistReq) : HandlerResult :=
  let months := resolveMonths q.monthsStr
  match fetch (histURL q months) with
  | Except.ok data => nativeNormalize now data
  | Except.error e =>
      match (List.range months).filterMap (monthSlot now fetch q) with
      | [] =>
          match fetch (singleURL q) with
          | Except.error e2 =>
              HandlerResult.err 502
                ("history fetch failed: " ++ e ++ ", fallback failed: " ++ e2)
          | Except.ok single => HandlerResult.okHistory (normalizeAll now 0 [single])
      | history => HandlerResult.okHistory (normalizeAll now 0 history)

/-- The referenceMonth string carried by a history entry, when it is a
JSON object with a string at that key. -/
def entryLabel (p : Payload) : Option String :=
  match p with
  | Payload.json (Json.obj fs) =>
      match objLookup fs "referenceMonth" with
      | some (Json.str s) => some s
      | _ => none
  | _ => none

/-- The list of reference-month labels of a history response. -/
def resultLabels : HandlerResult → Option (List (Option String))
  | HandlerResult.okHistory es => some (es.map entryLabel)
  | _ => none

/-- A probe outcome that does not store a value (the loop advances to
the next candidate). -/
def isReject : ProbeOutcome → Bool
  | ProbeOutcome.fetchFail => true
  | ProbeOutcome.emptyPrice => true
  | ProbeOutcome.store _ => false

/-! ## Concrete scenarios used by the claim instances -/

/-- A request arriving on 2025-05-31: AddDate(0, -1, 0) lands on April
31, which Go normalizes to May 1. -/
def d31 : Date := ⟨2025, 5, 31⟩

/-- A request arriving mid-month, where no date normalization occurs. -/
def d15 : Date := ⟨2025, 5, 15⟩

def q1 : HistReq := ⟨"cars", "23", "5585", "2014-1", "3"⟩

def q2 : HistReq := ⟨"cars", "21", "4828", "2014-1", "1"⟩

def q3 : HistReq := ⟨"cars", "59", "5940", "2014-3", "2"⟩

def q6 : HistReq := ⟨"motorcycles", "77", "5223", "2015-1", "2"⟩

/-- A record a probed endpoint could return, carrying its own
(upstream) reference-month label. -/
def recJson : Json :=
  Json.obj [("price", Json.str "R$ 1,00"), ("referenceMonth", Json.str "01/2000")]

/-- Oracle for the C1 scenario: the native endpoint fails and the
first candidate of every month succeeds (the offsets 0 and 1 probe the
same reference string on 2025-05-31). -/
def fC1 : Fetch := fun u =>
  if u = histURL q1 3 then Except.error "native history unavailable"
  else if u = yearURL q1 ++ "?referenceMonth=2025-05" then Except.ok (Payload.json recJson)
  else if u = yearURL q1 ++ "?referenceMonth=2025-03" then Except.ok (Payload.json recJson)
  else Except.error "not found"

/-- Oracle where every fetch succeeds but every payload decodes to a
record with an empty price. -/
def fEmptyObj : Fetch := fun _ => Except.ok (Payload.json (Json.obj []))

/-- Oracle where every fetch fails. -/
def fAllFail : Fetch := fun _ => Except.error "down"

/-- A native history payload with two object entries. -/
def nativeHist : Json :=
  Json.obj [("history", Json.arr
    [ Json.obj [("price", Json.str "R$ 30.000,00"), ("referenceMonth", Json.str "upstream A")]
    , Json.obj [("price", Json.str "R$ 29.000,00"), ("referenceMonth", Json.str "upstream B")] ])]

def fC6 : Fetch := fun _ => Except.ok (Payload.json nativeHist)

def q8 : PriceReq := ⟨"cars", "23", "5585", "2014-1", "VW - VolksWagen", "Gol"⟩

/-- A full upstream price payload for the C8 scenario. -/
def prJson : Json :=
  Json.obj
    [ ("price", Json.str "R$ 10.000,00")
    , ("brand", Json.str "VW - VolksWagen")
    , ("model", Json.str "Gol")
    , ("modelYear", Json.num 2014)
    , ("fuel", Json.str "Gasolina")
    , ("codeFipe", Json.str "005340-6")
    , ("referenceMonth", Json.str "junho de 2021")
    , ("vehicleType", Json.num 1)
    , ("acronymFuel", Json.str "G") ]

def fC8 : Fetch := fun _ => Except.ok (Payload.json prJson)

/-- The record prJson decodes to. -/
def pr8 : PriceResponse :=
  ⟨"R$ 10.000,00", "VW - VolksWagen", "Gol", 2014, "Gasolina", "005340-6",
    "junho de 2021", 1, "G"⟩

/-- Oracle returning bytes that are not valid JSON. -/
def fRawBytes : Fetch := fun _ => Except.ok (Payload.raw "not json")

/-! ## Helper lemmas -/

theorem findRun_eq_nil_iff (l : List Char) :
    findRun l = [] ↔ l.all (fun c => !isNumChar c) = true := by
  induction l with
  | nil => simp [findRun]
  | cons c rest ih =>
    cases hc : isNumChar c with
    | true =>
      simp [findRun, List.dropWhile_cons, List.takeWhile_cons, hc]
    | false =>
      have hstep : findRun (c :: rest) = findRun rest := by
        simp [findRun, List.dropWhile_cons, hc]
      rw [hstep, ih]
      simp [hc]

theorem all_dropWhile_of_imp (p q : Char → Bool) (h : ∀ c, q c = true → p c = true) :
    ∀ l : List Char, ((l.dropWhile q).all p) = l.all p := by
  intro l
  induction l with
  | nil => rfl
  | cons c rest ih =>
    cases hq : q c with
    | true => simp [List.dropWhile_cons, hq, ih, h c hq]
    | false => simp [List.dropWhile_cons, hq]

theorem goTrim_all_notNum (l : List Char) :
    ((goTrim l).all (fun c => !isNumChar c)) = l.all (fun c => !isNumChar c) := by
  have h : ∀ c, isSpaceChar c = true → (!isNumChar c) = true := by
    intro c hc
    simp only [isSpaceChar, Bool.or_eq_true, decide_eq_true_eq] at hc
    rcases hc with ((((rfl | rfl) | rfl) | rfl) | rfl) | rfl <;> decide
  unfold goTrim
  rw [List.all_reverse, all_dropWhile_of_imp _ _ h, List.all_reverse,
    all_dropWhile_of_imp _ _ h]

/-! ## Claim C4: price parsing -/

/-- Claim C4, counterexample: the input "," contains no digit, yet
parsePrice does not return the "no numeric part" error — the regexp
`[0-9,.]+` matches the bare comma, which is then normalized to "." and
fails ParseFloat with a syntax error instead. -/
theorem parsePrice_comma_counterexample :
    parsePrice "," = Except.error PriceErr.badNumber
    ∧ parsePrice "," ≠ Except.error PriceErr.noNumericPart
    ∧ (",".data.all (fun c => !c.isDigit)) = true := by
  refine ⟨rfl, ?_, by decide⟩
  intro h
  rw [show parsePrice "," = Except.error PriceErr.badNumber from rfl] at h
  exact PriceErr.noConfusion (Except.error.inj h)

/-- Claim C4, amended: the three documented examples parse to 1234.56;
the "no numeric part" error occurs exactly when the input has no
character of the class [0-9,.] (an input with separators but no digits
instead fails with a number-syntax error); on a nonempty matched run
the separators are normalized as specified (both present: dots
stripped, comma becomes the decimal point; only commas: commas become
decimal points; no comma: parsed as-is) and the result is the
ParseFloat of the normalized run. -/
theorem parsePrice_spec_amended :
    parsePrice "1.234,56" = Except.ok (1234.56 : ℚ)
    ∧ parsePrice "1234.56" = Except.ok (1234.56 : ℚ)
    ∧ parsePrice "1234,56" = Except.ok (1234.56 : ℚ)
    ∧ (∀ s : String,
        (parsePrice s = Except.error PriceErr.noNumericPart ↔
          s.data.all (fun c => !isNumChar c) = true))
    ∧ (∀ s : String, findRun (goTrim s.data) ≠ [] →
        parsePrice s = ofParseFloat (sepNormalize (findRun (goTrim s.data))))
    ∧ (∀ m : List Char,
        (hasChar m '.' = true → hasChar m ',' = true →
          sepNormalize m = commaToDot (stripDots m))
        ∧ (hasChar m ',' = true → hasChar m '.' = false →
          sepNormalize m = commaToDot m)
        ∧ (hasChar m ',' = false → sepNormalize m = m)) := by
  have hpp : ∀ s : String, parsePrice s =
      (if (findRun (goTrim s.data)).isEmpty then Except.error PriceErr.noNumericPart
       else ofParseFloat (sepNormalize (findRun (goTrim s.data)))) := fun _ => rfl
  refine ⟨by with_unfolding_all rfl, by with_unfolding_all rfl, by with_unfolding_all rfl,
    ?_, ?_, ?_⟩
  · intro s
    rw [hpp s]
    cases hm : findRun (goTrim s.data) with
    | nil =>
      simp only [List.isEmpty_nil, if_true]
      constructor
      · intro _
        rw [← goTrim_all_notNum]
        exact (findRun_eq_nil_iff _).mp hm
      · intro _; trivial
    | cons c rest =>
      simp only [List.isEmpty_cons, if_false, Bool.false_eq_true]
      constructor
      · intro h
        exfalso
        revert h
        unfold ofParseFloat
        cases parseFloatQ (sepNormalize (c :: rest)) <;> simp
      · intro h
        exfalso
        have hnil : findRun (goTrim s.data) = [] :=
          (findRun_eq_nil_iff _).mpr (by rw [goTrim_all_notNum]; exact h)
        rw [hm] at hnil
        exact List.noConfusion hnil
  · intro s hne
    rw [hpp s]
    cases hm : findRun (goTrim s.data) with
    | nil => exact absurd hm hne
    | cons c rest => rfl
  · intro m
    refine ⟨?_, ?_, ?_⟩
    · intro h1 h2; simp [sepNormalize, h1, h2]
    · intro h1 h2; simp [sepNormalize, h1, h2]
    · intro h1; simp [sepNormalize, h1]

/-- Claim C4, witness: the amended rules applied to the concrete input
"9,5" (comma only, so the comma becomes the decimal point). -/
theorem parsePrice_spec_amended_witness :
    parsePrice "9,5" = ofParseFloat (sepNormalize (findRun (goTrim "9,5".data)))
    ∧ sepNormalize (findRun (goTrim "9,5".data)) = commaToDot (findRun (goTrim "9,5".data)) := by
  constructor
  · exact parsePrice_spec_amended.2.2.2.2.1 "9,5" (by decide)
  · exact (parsePrice_spec_amended.2.2.2.2.2 (findRun (goTrim "9,5".data))).2.1
      (by decide) (by decide)

/-! ## Claim C5: the TTL cache -/

/-- Claim C5: a get at the put instant with positive TTL returns the
stored bytes; a get strictly after the expiry instant returns
not-found; a get of a never-stored key returns not-found. -/
theorem cache_put_get_ttl (c : Cache) (t t2 : ℕ) (k : String) (d : List ℕ) (ttl : ℕ)
    (h : 0 < ttl) :
    getCached (setCached c t k d ttl) t k = some d
    ∧ (t + ttl < t2 → getCached (setCached c t k d ttl) t2 k = none)
    ∧ (c k = none → getCached c t2 k = none) := by
  refine ⟨?_, ?_, ?_⟩
  · have hh : ¬ (t > t + ttl) := by omega
    simp [getCached, setCached, hh]
  · intro h2
    have hh : t2 > t + ttl := h2
    simp [getCached, setCached, hh]
  · intro h2
    simp [getCached, h2]

/-- Claim C5, witness: concrete put/get at key "brands:cars" with TTL
10, read at the put instant and after expiry. -/
theorem cache_put_get_ttl_witness :
    getCached (setCached (fun _ => none) 0 "brands:cars" [1, 2] 10) 0 "brands:cars" = some [1, 2]
    ∧ getCached (setCached (fun _ => none) 0 "brands:cars" [1, 2] 10) 11 "brands:cars" = none := by
  have h := cache_put_get_ttl (fun _ => none) 0 11 "brands:cars" [1, 2] 10 (by decide)
  exact ⟨h.1, h.2.1 (by decide)⟩

/-! ## Lemmas about the price-handler metric updates -/

theorem pmos_vehicleSearchStats (y : String) (data : Payload) (ms : Metrics) :
    (priceMetricsOnSuccess y data ms).vehicleSearchStats = ms.vehicleSearchStats := by
  cases hd : decodePriceResponse data with
  | none => simp only [priceMetricsOnSuccess, hd]
  | some pr =>
    cases hp : parsePrice pr.Price with
    | ok f => simp only [priceMetricsOnSuccess, hd, hp]; split <;> rfl
    | error e => simp only [priceMetricsOnSuccess, hd, hp]; split <;> rfl

theorem pmos_brandCounter (y : String) (data : Payload) (ms : Metrics) :
    (priceMetricsOnSuccess y data ms).brandCounter = ms.brandCounter := by
  cases hd : decodePriceResponse data with
  | none => simp only [priceMetricsOnSuccess, hd]
  | some pr =>
    cases hp : parsePrice pr.Price with
    | ok f => simp only [priceMetricsOnSuccess, hd, hp]; split <;> rfl
    | error e => simp only [priceMetricsOnSuccess, hd, hp]; split <;> rfl

theorem pmos_decode_none (y : String) (data : Payload) (ms : Metrics)
    (hd : decodePriceResponse data = none) :
    priceMetricsOnSuccess y data ms = ms := by
  simp only [priceMetricsOnSuccess, hd]

theorem pmos_gauges_parse_err (y : String) (data : Payload) (ms : Metrics)
    (pr : PriceResponse) (e : PriceErr)
    (hd : decodePriceResponse data = some pr) (hp : parsePrice pr.Price = Except.error e) :
    (priceMetricsOnSuccess y data ms).priceMinGauge = ms.priceMinGauge
    ∧ (priceMetricsOnSuccess y data ms).priceMaxGauge = ms.priceMaxGauge := by
  simp only [priceMetricsOnSuccess, hd, hp]
  constructor <;> (split <;> rfl)

theorem pmos_minmax_parse_ok (y : String) (data : Payload) (ms : Metrics)
    (pr : PriceResponse) (f : ℚ)
    (hd : decodePriceResponse data = some pr) (hp : parsePrice pr.Price = Except.ok f) :
    (priceMetricsOnSuccess y data ms).priceMinGauge (pr.Brand, pr.Model, y) = f
    ∧ (priceMetricsOnSuccess y data ms).priceMaxGauge (pr.Brand, pr.Model, y) = f := by
  simp only [priceMetricsOnSuccess, hd, hp]
  constructor <;> (split <;> simp [setAt])

/-! ## Claim C10: counters bumped before the fetch -/

/-- Claim C10: every price request increments the vehicle-search
counter and the brand counter exactly once at their label sets,
whatever the fetch outcome, and a failed fetch yields a 502 with the
fetch error. -/
theorem price_counters_inc_even_on_failure (fetch : Fetch) (q : PriceReq) (ms : Metrics) :
    (handleGetPrice fetch q ms).1.vehicleSearchStats (q.brandName, q.modelName, q.yearId)
        = ms.vehicleSearchStats (q.brandName, q.modelName, q.yearId) + 1
    ∧ (handleGetPrice fetch q ms).1.brandCounter q.brandName
        = ms.brandCounter q.brandName + 1
    ∧ (∀ e, fetch (priceURL q) = Except.error e →
        (handleGetPrice fetch q ms).2 = HandlerResult.err 502 e) := by
  refine ⟨?_, ?_, ?_⟩
  · cases hf : fetch (priceURL q) with
    | error e =>
      simp only [handleGetPrice, hf]
      simp [preMetrics, bump]
    | ok data =>
      simp only [handleGetPrice, hf]
      rw [pmos_vehicleSearchStats]
      simp [preMetrics, bump]
  · cases hf : fetch (priceURL q) with
    | error e =>
      simp only [handleGetPrice, hf]
      simp [preMetrics, bump]
    | ok data =>
      simp only [handleGetPrice, hf]
      rw [pmos_brandCounter]
      simp [preMetrics, bump]
  · intro e hf
    simp only [handleGetPrice, hf]

/-- Claim C10, witness: with every fetch failing, the handler responds
502 with the fetch error. -/
theorem price_counters_inc_even_on_failure_witness :
    (handleGetPrice fAllFail q8 zeroMetrics).2 = HandlerResult.err 502 "down" :=
  (price_counters_inc_even_on_failure fAllFail q8 zeroMetrics).2.2 "down" rfl

/-! ## Claim C7: the price payload is passed through verbatim -/

/-- Claim C7: on a successful fetch the response body is the upstream
payload unchanged; a decode failure leaves the metrics at exactly the
two pre-fetch counter bumps, and a price-parse failure leaves both
gauges untouched. -/
theorem price_passthrough (fetch : Fetch) (q : PriceReq) (ms : Metrics) (data : Payload)
    (h : fetch (priceURL q) = Except.ok data) :
    (handleGetPrice fetch q ms).2 = HandlerResult.ok data
    ∧ (decodePriceResponse data = none → (handleGetPrice fetch q ms).1 = preMetrics q ms)
    ∧ (∀ pr e, decodePriceResponse data = some pr → parsePrice pr.Price = Except.error e →
        (handleGetPrice fetch q ms).1.priceMinGauge = ms.priceMinGauge
        ∧ (handleGetPrice fetch q ms).1.priceMaxGauge = ms.priceMaxGauge) := by
  refine ⟨?_, ?_, ?_⟩
  · simp only [handleGetPrice, h]
  · intro hd
    simp only [handleGetPrice, h]
    exact pmos_decode_none q.yearId data (preMetrics q ms) hd
  · intro pr e hd hp
    simp only [handleGetPrice, h]
    exact pmos_gauges_parse_err q.yearId data (preMetrics q ms) pr e hd hp

/-- Claim C7, witness: an upstream body that is not JSON is still
returned to the caller unchanged. -/
theorem price_passthrough_witness :
    (handleGetPrice fRawBytes q8 zeroMetrics).2 = HandlerResult.ok (Payload.raw "not json") :=
  (price_passthrough fRawBytes q8 zeroMetrics (Payload.raw "not json") rfl).1

/-! ## Claim C8: the concrete metrics scenario -/

/-- Claim C8: a successful upstream response with price
"R$ 10.000,00" sets the min and max gauges at the decoded
brand/model/yearId labels to 10000 and increments the brand and fuel
counters exactly once. -/
theorem price_scenario_metrics :
    (handleGetPrice fC8 q8 zeroMetrics).1.priceMinGauge ("VW - VolksWagen", "Gol", "2014-1") = 10000
    ∧ (handleGetPrice fC8 q8 zeroMetrics).1.priceMaxGauge ("VW - VolksWagen", "Gol", "2014-1") = 10000
    ∧ (handleGetPrice fC8 q8 zeroMetrics).1.brandCounter "VW - VolksWagen" = 1
    ∧ (handleGetPrice fC8 q8 zeroMetrics).1.fuelCounter "Gasolina" = 1
    ∧ (handleGetPrice fC8 q8 zeroMetrics).1.vehicleSearchStats ("VW - VolksWagen", "Gol", "2014-1") = 1 := by
  refine ⟨?_, ?_, ?_, ?_, ?_⟩ <;> with_unfolding_all rfl

/-! ## Claim C9: both gauges are set to the last observed price -/

/-- Claim C9: whenever the handler updates the price gauges, the min
gauge and the max gauge at the decoded label set both end up equal to
the parsed price, independently of the previous metric state, so
neither tracks a running extremum. -/
theorem price_gauges_equal_last_observed (fetch : Fetch) (q : PriceReq) (ms : Metrics)
    (data : Payload) (pr : PriceResponse) (f : ℚ)
    (h1 : fetch (priceURL q) = Except.ok data)
    (h2 : decodePriceResponse data = some pr)
    (h3 : parsePrice pr.Price = Except.ok f) :
    (handleGetPrice fetch q ms).1.priceMinGauge (pr.Brand, pr.Model, q.yearId) = f
    ∧ (handleGetPrice fetch q ms).1.priceMaxGauge (pr.Brand, pr.Model, q.yearId) = f := by
  simp only [handleGetPrice, h1]
  exact pmos_minmax_parse_ok q.yearId data (preMetrics q ms) pr f h2 h3

/-- Claim C9, witness: the C8 oracle with a nonzero starting gauge
state still ends with both gauges at 10000. -/
theorem price_gauges_equal_last_observed_witness :
    (handleGetPrice fC8 q8 ⟨fun _ => 7, fun _ => 7, fun _ => 7, fun _ => 99999, fun _ => 1⟩).1.priceMinGauge
        (pr8.Brand, pr8.Model, q8.yearId) = 10000
    ∧ (handleGetPrice fC8 q8 ⟨fun _ => 7, fun _ => 7, fun _ => 7, fun _ => 99999, fun _ => 1⟩).1.priceMaxGauge
        (pr8.Brand, pr8.Model, q8.yearId) = 10000 :=
  price_gauges_equal_last_observed fC8 q8 _ (Payload.json prJson) pr8 10000 rfl
    (by with_unfolding_all rfl) (by with_unfolding_all rfl)

/-! ## Lemmas about the per-month candidate loop -/

theorem refFill_price (pr : PriceResponse) (x : String) :
    ((if pr.ReferenceMonth = "" then { pr with ReferenceMonth := x } else pr)).Price
      = pr.Price := by
  split <;> rfl

theorem probe_reject_iff (fetch : Fetch) (ref u : String) :
    isReject (probeCandidate fetch ref u) = true ↔
      (∃ e, fetch u = Except.error e) ∨
      (∃ b pr, fetch u = Except.ok b ∧ decodePriceResponse b = some pr ∧ pr.Price = "") := by
  cases hf : fetch u with
  | error e =>
    have hp : probeCandidate fetch ref u = ProbeOutcome.fetchFail := by
      simp only [probeCandidate, hf]
    rw [hp]
    constructor
    · intro _; exact Or.inl ⟨e, rfl⟩
    · intro _; rfl
  | ok b =>
    cases hd : decodePriceResponse b with
    | some pr =>
      by_cases hpr : pr.Price = ""
      · have hp : probeCandidate fetch ref u = ProbeOutcome.emptyPrice := by
          simp only [probeCandidate, hf, hd, refFill_price, if_pos hpr]
        rw [hp]
        constructor
        · intro _; exact Or.inr ⟨b, pr, rfl, hd, hpr⟩
        · intro _; rfl
      · have hp : isReject (probeCandidate fetch ref u) = false := by
          simp only [probeCandidate, hf, hd, refFill_price, if_neg hpr, isReject]
        rw [hp]
        constructor
        · intro h; exact Bool.noConfusion h
        · rintro (⟨e, he⟩ | ⟨b2, pr2, hb2, hd2, hp2⟩)
          · exact Except.noConfusion he
          · have hb := Except.ok.inj hb2
            rw [← hb, hd] at hd2
            have hpe := Option.some.inj hd2
            rw [← hpe] at hp2
            exact absurd hp2 hpr
    | none =>
      have hp : isReject (probeCandidate fetch ref u) = false := by
        cases b with
        | raw s => simp only [probeCandidate, hf, hd, isReject]
        | json j => cases j <;> simp only [probeCandidate, hf, hd, isReject]
      rw [hp]
      constructor
      · intro h; exact Bool.noConfusion h
      · rintro (⟨e, he⟩ | ⟨b2, pr2, hb2, hd2, hp2⟩)
        · exact Except.noConfusion he
        · have hb := Except.ok.inj hb2
          rw [← hb, hd] at hd2
          exact Option.noConfusion hd2

theorem tryCandidates_none_iff (fetch : Fetch) (ref : String) :
    ∀ cs : List String, tryCandidates fetch ref cs = none ↔
      ∀ u ∈ cs, isReject (probeCandidate fetch ref u) = true := by
  intro cs
  induction cs with
  | nil => simp [tryCandidates]
  | cons u rest ih =>
    cases hp : probeCandidate fetch ref u with
    | fetchFail =>
      simp only [tryCandidates, hp, List.forall_mem_cons, ih, isReject, true_and]
    | emptyPrice =>
      simp only [tryCandidates, hp, List.forall_mem_cons, ih, isReject, true_and]
    | store p =>
      simp only [tryCandidates, hp, List.forall_mem_cons, isReject]
      constructor
      · intro h; exact Option.noConfusion h
      · rintro ⟨h, _⟩; exact Bool.noConfusion h

theorem tryCandidates_none_of_all_fail (fetch : Fetch) (ref : String) :
    ∀ cs : List String, (∀ u ∈ cs, ∃ m, fetch u = Except.error m) →
      tryCandidates fetch ref cs = none := by
  intro cs h
  rw [tryCandidates_none_iff]
  intro u hu
  obtain ⟨m, hm⟩ := h u hu
  rw [probe_reject_iff]
  exact Or.inl ⟨m, hm⟩

/-! ## Claim C2: when a month slot stays empty -/

/-- Claim C2, counterexample: with an oracle on which every fetch
succeeds (returning the empty JSON object, which decodes to a record
with an empty price), the month slot is still empty — refuting that an
empty slot implies every candidate fetch failed. -/
theorem monthSlot_empty_despite_success :
    monthSlot d15 fEmptyObj q2 0 = none
    ∧ fEmptyObj ((candidateURLs q2 (refYM d15 0)).headI)
        = Except.ok (Payload.json (Json.obj [])) := by
  constructor
  · with_unfolding_all rfl
  · rfl

/-- Claim C2, amended: a month slot stays empty exactly when every one
of its five candidates either fails its fetch outright or yields a
payload that decodes to a record with an empty price field; any
successfully fetched payload outside those cases stores a result. -/
theorem monthSlot_none_iff_all_rejected (now : Date) (fetch : Fetch) (q : HistReq) (i : ℕ) :
    monthSlot now fetch q i = none ↔
      ∀ u ∈ candidateURLs q (refYM now i),
        (∃ e, fetch u = Except.error e) ∨
        (∃ b pr, fetch u = Except.ok b ∧ decodePriceResponse b = some pr ∧ pr.Price = "") := by
  unfold monthSlot
  rw [tryCandidates_none_iff]
  constructor
  · intro h u hu
    exact (probe_reject_iff fetch (refYM now i) u).mp (h u hu)
  · intro h u hu
    exact (probe_reject_iff fetch (refYM now i) u).mpr (h u hu)

/-- Claim C2, witness: the amended characterization applied to the
all-empty-object oracle yields the empty slot. -/
theorem monthSlot_none_iff_all_rejected_witness :
    monthSlot d15 fEmptyObj q2 0 = none :=
  (monthSlot_none_iff_all_rejected d15 fEmptyObj q2 0).mpr
    (fun _ _ => Or.inr ⟨Payload.json (Json.obj []), emptyPR, rfl, rfl, rfl⟩)

/-! ## Claim C3: total failure of the history synthesis -/

theorem filterMap_nil_of_none {α β : Type} (f : α → Option β) :
    ∀ l : List α, (∀ a ∈ l, f a = none) → l.filterMap f = [] := by
  intro l h
  induction l with
  | nil => rfl
  | cons a rest ih =>
    rw [List.filterMap_cons, h a (List.mem_cons_self a rest)]
    exact ih (fun x hx => h x (List.mem_cons_of_mem a hx))

/-- Claim C3: when the native history endpoint fails and every
candidate fetch of every month fails, the handler answers 502 with a
message carrying both the history-fetch error and the fallback error
when the single-price fallback also fails, and a one-element history
when the fallback succeeds. -/
theorem history_total_failure_502 (now : Date) (fetch : Fetch) (q : HistReq) (e : String)
    (h1 : fetch (histURL q (resolveMonths q.monthsStr)) = Except.error e)
    (h2 : ∀ i, i < resolveMonths q.monthsStr →
        ∀ u ∈ candidateURLs q (refYM now i), ∃ m, fetch u = Except.error m) :
    (∀ e2, fetch (singleURL q) = Except.error e2 →
        handleGetPriceHistory now fetch q =
          HandlerResult.err 502 ("history fetch failed: " ++ e ++ ", fallback failed: " ++ e2))
    ∧ (∀ p, fetch (singleURL q) = Except.ok p →
        handleGetPriceHistory now fetch q =
          HandlerResult.okHistory [normalizeEntry now 0 p]) := by
  have hslots : ∀ i ∈ List.range (resolveMonths q.monthsStr), monthSlot now fetch q i = none := by
    intro i hi
    exact tryCandidates_none_of_all_fail fetch (refYM now i) _ (h2 i (List.mem_range.mp hi))
  have hnil : (List.range (resolveMonths q.monthsStr)).filterMap (monthSlot now fetch q) = [] :=
    filterMap_nil_of_none _ _ hslots
  constructor
  · intro e2 h3
    simp only [handleGetPriceHistory, h1, hnil, h3]
  · intro p h3
    simp only [handleGetPriceHistory, h1, hnil, h3]
    rfl

/-- Claim C3, witness: with every fetch failing with "down", the
handler answers 502 mentioning both failures. -/
theorem history_total_failure_502_witness :
    handleGetPriceHistory d15 fAllFail q3 =
      HandlerResult.err 502 "history fetch failed: down, fallback failed: down" := by
  have h := (history_total_failure_502 d15 fAllFail q3 "down" rfl
      (fun _ _ u _ => ⟨"down", rfl⟩)).1 "down" rfl
  simpa using h

/-! ## Claim C1: the synthesized history labels, on 2025-05-31 -/

/-- Claim C1, failing evaluation: a months=3 request on 2025-05-31
with the native endpoint down and every per-month probe succeeding
yields the labels 05/2025, 05/2025, 03/2025 — the entry at index 1 is
labelled with the current month instead of the claimed current month
minus one (AddDate turns April 31 into May 1), so the labels are
neither "current minus index" nor distinct. -/
theorem priceHistory_duplicate_labels_on_may31 :
    resultLabels (handleGetPriceHistory d31 fC1 q1) =
      some [some "05/2025", some "05/2025", some "03/2025"]
    ∧ monthLabel d31 1 ≠ "04/2025" := by
  constructor
  · with_unfolding_all rfl
  · intro h
    rw [show monthLabel d31 1 = "05/2025" from by with_unfolding_all rfl] at h
    exact absurd h (by decide)

/-! ## Claim C6: the native-path relabelling, on 2025-05-31 -/

/-- Claim C6, failing evaluation: on 2025-05-31 the native history
path overwrites both elements with the label 05/2025 — prices and the
rest of each element are preserved, but the element at index 1 does
not receive current month minus one (the claim requires 04/2025). -/
theorem native_history_label_overwrite_may31 :
    handleGetPriceHistory d31 fC6 q6 =
      HandlerResult.ok (Payload.json (Json.obj [("history", Json.arr
        [ Json.obj [("price", Json.str "R$ 30.000,00"), ("referenceMonth", Json.str "05/2025")]
        , Json.obj [("price", Json.str "R$ 29.000,00"), ("referenceMonth", Json.str "05/2025")] ])])) := by
  with_unfolding_all rfl

end Gofipe
